import Mathlib

/-!
Verification of the PasswordVault data-access layer (src/core/PassWordVault.cpp)
against its natural-language specification.

The SQLite store is shallowly embedded as an explicit state `VaultDB` holding the
rows of the two tables.  Each mutating operation of the C++ class becomes a Lean
function from the pre-state to a pair of an outcome (`Except VaultError Bool`,
mirroring thrown exceptions versus returned booleans) and a post-state.  Storage
faults that the C++ code can observe (a failing `sqlite3_prepare_v2`, a
`sqlite3_step` not returning `SQLITE_DONE`, a failing transaction command) are
injected through explicit boolean parameters: `true` means the underlying call
succeeded.  Transaction semantics: inside `DeleteCodebook`, statements executed
after `BEGIN` are undone by `ROLLBACK`, so every failure path returns the
pre-call state.
-/

/-- A row of the `Codebook` table:
`Codebook(codebook_id PK, username, codebook_name, created_time)`. -/
structure Codebook where
  codebook_id : Int
  username : String
  codebook_name : String
  created_time : String
deriving DecidableEq

/-- A row of the `PasswordEntry` table:
`PasswordEntry(entry_id PK, codebook_id FK, address, public_key, encrypted_password, notes, created_time)`. -/
structure PasswordEntry where
  entry_id : Int
  codebook_id : Int
  address : String
  public_key : String
  encrypted_password : String
  notes : String
  created_time : String
deriving DecidableEq

/-- The SQLite database state visible to `PasswordVault`. -/
structure VaultDB where
  codebooks : List Codebook
  entries : List PasswordEntry
deriving DecidableEq

/-- The two error kinds the C++ code throws: `std::invalid_argument` for
validation failures and `std::runtime_error` (carrying `sqlite3_errmsg`) for
storage failures. -/
inductive VaultError where
  | invalidArgument (msg : String)
  | storageError (msg : String)
deriving DecidableEq

deriving instance DecidableEq for Except

/-- Byte-wise comparison of code-point sequences, the `BINARY` collation SQLite
uses for `ORDER BY created_time DESC` (UTF-8 byte order agrees with code-point
order). -/
def timeLeL : List Char → List Char → Bool
  | [], _ => true
  | _ :: _, [] => false
  | a :: as, b :: bs => a.toNat < b.toNat || (a.toNat == b.toNat && timeLeL as bs)

/-- String comparison used for the `created_time` columns. -/
def timeLe (a b : String) : Bool := timeLeL a.toList b.toList

theorem timeLeL_total : ∀ a b, timeLeL a b = true ∨ timeLeL b a = true
  | [], _ => Or.inl rfl
  | _ :: _, [] => Or.inr rfl
  | x :: xs, y :: ys => by
    rcases Nat.lt_trichotomy x.toNat y.toNat with h | h | h
    · left; simp [timeLeL, h]
    · rcases timeLeL_total xs ys with hr | hr
      · left; simp [timeLeL, h, hr]
      · right; simp [timeLeL, h.symm, hr]
    · right; simp [timeLeL, h]

theorem timeLeL_trans : ∀ a b c, timeLeL a b = true → timeLeL b c = true → timeLeL a c = true
  | [], _, _, _, _ => rfl
  | _ :: _, [], _, hab, _ => by simp [timeLeL] at hab
  | _ :: _, _ :: _, [], _, hbc => by simp [timeLeL] at hbc
  | x :: xs, y :: ys, z :: zs, hab, hbc => by
    simp only [timeLeL, Bool.or_eq_true, Bool.and_eq_true, decide_eq_true_eq, beq_iff_eq]
      at hab hbc ⊢
    rcases hab with h | ⟨he, hr⟩
    · rcases hbc with h2 | ⟨he2, _⟩
      · left; omega
      · left; omega
    · rcases hbc with h2 | ⟨he2, hr2⟩
      · left; omega
      · right; exact ⟨by omega, timeLeL_trans xs ys zs hr hr2⟩

/-- "`a` was created no earlier than `b`": the ordering relation realising
`ORDER BY created_time DESC` for codebooks. -/
def cbAfter (a b : Codebook) : Prop := timeLe b.created_time a.created_time = true

instance : DecidableRel cbAfter := fun a b =>
  inferInstanceAs (Decidable (timeLe b.created_time a.created_time = true))

instance : IsTotal Codebook cbAfter :=
  ⟨fun a b => timeLeL_total b.created_time.toList a.created_time.toList⟩

instance : IsTrans Codebook cbAfter :=
  ⟨fun _ b _ hab hbc => timeLeL_trans _ b.created_time.toList _ hbc hab⟩

/-- The ordering relation realising `ORDER BY created_time DESC` for entries. -/
def peAfter (a b : PasswordEntry) : Prop := timeLe b.created_time a.created_time = true

instance : DecidableRel peAfter := fun a b =>
  inferInstanceAs (Decidable (timeLe b.created_time a.created_time = true))

instance : IsTotal PasswordEntry peAfter :=
  ⟨fun a b => timeLeL_total b.created_time.toList a.created_time.toList⟩

instance : IsTrans PasswordEntry peAfter :=
  ⟨fun _ b _ hab hbc => timeLeL_trans _ b.created_time.toList _ hbc hab⟩

/-- Character comparison of SQLite `LIKE`: case-insensitive on the ASCII
letters only (`Char.toLower` lower-cases exactly `A`-`Z`). -/
def likeCharEq (p c : Char) : Bool := p.toLower == c.toLower

/-- SQLite `LIKE` pattern matching: `%` matches any (possibly empty)
sequence — i.e. the rest of the pattern may match any suffix of the string —
`_` matches any single character, and other characters match
ASCII-case-insensitively. -/
def likeMatch : List Char → List Char → Bool
  | [], s => s.isEmpty
  | '%' :: ps, s => s.tails.any fun t => likeMatch ps t
  | _ :: _, [] => false
  | p :: ps, c :: cs => (p == '_' || likeCharEq p c) && likeMatch ps cs

/-- `s LIKE pat` for SQLite with its default `LIKE` semantics. -/
def sqlLike (pat s : String) : Bool := likeMatch pat.toList s.toList

/-- `PasswordVault::ValidateCodebookName`: length 1-100 and every character
alphanumeric, space, hyphen or underscore. -/
def ValidateCodebookName (name : String) : Bool :=
  !name.isEmpty && decide (name.length ≤ 100) &&
    name.toList.all fun c => c.isAlphanum || c == ' ' || c == '-' || c == '_'

/-- `PasswordVault::CheckCodebookExists`: `SELECT 1 FROM Codebook WHERE codebook_id = ?`
finds a row. -/
def CheckCodebookExists (db : VaultDB) (codebook_id : Int) : Bool :=
  db.codebooks.any fun cb => cb.codebook_id == codebook_id

/-- `PasswordVault::CreateCodebook`.  `new_id` and `now` are the primary key
and timestamp the database would generate for a fresh row; `prepOk` / `stepOk`
inject the outcome of `sqlite3_prepare_v2` / `sqlite3_step`.  The insert uses
`ON CONFLICT(username, codebook_name) DO NOTHING`, so a duplicate key still
steps to `SQLITE_DONE` and leaves the table unchanged. -/
def CreateCodebook (db : VaultDB) (username name : String) (new_id : Int) (now : String)
    (prepOk stepOk : Bool) : Except VaultError Bool × VaultDB :=
  if ValidateCodebookName name = false then
    (Except.error (VaultError.invalidArgument "Codebook name is invalid"), db)
  else if prepOk = false then
    (Except.error (VaultError.storageError "Prepare failed"), db)
  else if stepOk = false then
    (Except.ok false, db)
  else if db.codebooks.any fun cb => cb.username == username && cb.codebook_name == name then
    (Except.ok true, db)
  else
    (Except.ok true, { db with codebooks := Codebook.mk new_id username name now :: db.codebooks })

/-- Outcomes of the six fallible store calls inside `PasswordVault::DeleteCodebook`:
`BEGIN TRANSACTION`, prepare and step of the entry delete, prepare and step of
the codebook delete, and `COMMIT`. -/
structure DeleteSteps where
  beginOk : Bool
  prepEntriesOk : Bool
  stepEntriesOk : Bool
  prepCodebookOk : Bool
  stepCodebookOk : Bool
  commitOk : Bool
deriving DecidableEq

/-- All six store calls succeed. -/
def DeleteSteps.allOk : DeleteSteps := ⟨true, true, true, true, true, true⟩

/-- `PasswordVault::DeleteCodebook`.  Every failure path of the C++ code calls
`RollbackTransaction` (directly or through the `catch` block) before rethrowing,
and `ROLLBACK` undoes the deletes issued after `BEGIN`, so each error case
returns the pre-call state. -/
def DeleteCodebook (db : VaultDB) (codebook_id : Int) (s : DeleteSteps) :
    Except VaultError Bool × VaultDB :=
  if CheckCodebookExists db codebook_id = false then
    (Except.ok false, db)
  else if s.beginOk = false then
    (Except.error (VaultError.storageError "Failed to start transaction"), db)
  else if s.prepEntriesOk = false then
    (Except.error (VaultError.storageError "Prepare failed"), db)
  else if s.stepEntriesOk = false then
    (Except.error (VaultError.storageError "Delete entries failed"), db)
  else if s.prepCodebookOk = false then
    (Except.error (VaultError.storageError "Prepare failed"), db)
  else if s.stepCodebookOk = false then
    (Except.error (VaultError.storageError "Delete codebook failed"), db)
  else if s.commitOk = false then
    (Except.error (VaultError.storageError "Commit failed"), db)
  else
    (Except.ok true,
      { codebooks := db.codebooks.filter fun cb => cb.codebook_id != codebook_id,
        entries := db.entries.filter fun e => e.codebook_id != codebook_id })

/-- `PasswordVault::GetUserCodebooks`:
`SELECT ... FROM Codebook WHERE username = ? ORDER BY created_time DESC`. -/
def GetUserCodebooks (db : VaultDB) (username : String) : List Codebook :=
  List.insertionSort cbAfter (db.codebooks.filter fun cb => cb.username == username)

/-- `PasswordVault::AddEntry`.  `new_id` and `now` are the generated primary
key and timestamp; `prepOk` / `stepOk` inject the prepare / step outcomes. -/
def AddEntry (db : VaultDB) (codebook_id : Int)
    (address public_key encrypted_password notes : String) (new_id : Int) (now : String)
    (prepOk stepOk : Bool) : Except VaultError Bool × VaultDB :=
  if CheckCodebookExists db codebook_id = false then
    (Except.ok false, db)
  else if prepOk = false then
    (Except.error (VaultError.storageError "Prepare failed"), db)
  else if stepOk = false then
    (Except.ok false, db)
  else
    (Except.ok true,
      { db with entries := db.entries ++
          [PasswordEntry.mk new_id codebook_id address public_key encrypted_password notes now] })

/-- The rows of `PasswordEntry` satisfying the `WHERE` clause of
`PasswordVault::GetEntries`: `codebook_id = ? AND address LIKE ?` with the
pattern `"%" + filter + "%"`. -/
def entriesMatching (db : VaultDB) (codebook_id : Int) (filter : String) : List PasswordEntry :=
  db.entries.filter fun e =>
    e.codebook_id == codebook_id && sqlLike ("%" ++ filter ++ "%") e.address

/-- SQLite `LIMIT ? OFFSET ?`: a negative offset counts as zero, a negative
limit means no limit. -/
def sqliteWindow (limit offset : Int) (l : List PasswordEntry) : List PasswordEntry :=
  if limit < 0 then l.drop offset.toNat else (l.drop offset.toNat).take limit.toNat

/-- `PasswordVault::GetEntries` with `offset = page * page_size`. -/
def GetEntries (db : VaultDB) (codebook_id : Int) (filter : String) (page page_size : Int) :
    List PasswordEntry :=
  sqliteWindow page_size (page * page_size)
    (List.insertionSort peAfter (entriesMatching db codebook_id filter))

/-- `PasswordVault::UpdateEntry`.  After a successful step the C++ code also
requires `sqlite3_changes(db_) > 0`, i.e. at least one row matched
`WHERE entry_id = ?`. -/
def UpdateEntry (db : VaultDB) (entry_id : Int)
    (new_address new_public_key new_encrypted_password new_notes : String)
    (prepOk stepOk : Bool) : Except VaultError Bool × VaultDB :=
  if new_address.isEmpty || decide (new_address.length > 253) then
    (Except.error (VaultError.invalidArgument "Address must be 1-253 characters"), db)
  else if new_public_key.isEmpty || decide (new_public_key.length > 4096) then
    (Except.error (VaultError.invalidArgument "Public key is invalid"), db)
  else if new_encrypted_password.isEmpty || decide (new_encrypted_password.length > 512) then
    (Except.error (VaultError.invalidArgument "Encrypted password is invalid"), db)
  else if prepOk = false then
    (Except.error (VaultError.storageError "Prepare failed"), db)
  else if stepOk = false then
    (Except.ok false, db)
  else
    (Except.ok (db.entries.countP (fun e => e.entry_id == entry_id) != 0),
      { db with entries := db.entries.map fun e =>
          if e.entry_id == entry_id then
            { e with address := new_address, public_key := new_public_key,
                     encrypted_password := new_encrypted_password, notes := new_notes }
          else e })

/-- Spec-side reading of claim C8, for comparison with the `LIKE`-based code:
`needle` occurs literally as a contiguous substring of `hay`. -/
def specContainsSubstring (needle hay : String) : Prop :=
  needle.toList <:+: hay.toList

instance (needle hay : String) : Decidable (specContainsSubstring needle hay) :=
  inferInstanceAs (Decidable (_ <:+: _))

/-- The conflict key of `CreateCodebook`: same owner and same codebook name. -/
def cbKey (owner name : String) (cb : Codebook) : Bool :=
  cb.username == owner && cb.codebook_name == name

theorem ValidateCodebookName_iff (name : String) :
    ValidateCodebookName name = true ↔
      name ≠ "" ∧ name.length ≤ 100 ∧
        ∀ c ∈ name.toList, c.isAlphanum = true ∨ c = ' ' ∨ c = '-' ∨ c = '_' := by
  simp [ValidateCodebookName, List.all_eq_true, String.isEmpty_iff, Bool.or_eq_true,
    beq_iff_eq, and_assoc, Bool.eq_false_iff, ne_eq, or_assoc]

theorem CreateCodebook_invalid_iff (db : VaultDB) (owner name : String) (nid : Int)
    (now : String) (prepOk stepOk : Bool) :
    (∃ msg, (CreateCodebook db owner name nid now prepOk stepOk).1 =
        Except.error (VaultError.invalidArgument msg)) ↔
      ValidateCodebookName name = false := by
  cases hx : ValidateCodebookName name with
  | false => simp [CreateCodebook, hx]
  | true =>
    simp only [CreateCodebook, hx]
    cases prepOk with
    | false => simp
    | true =>
      cases stepOk with
      | false => simp
      | true =>
        simp only [Bool.true_eq_false, if_false]
        split <;> simp

/-- Claim C5: CreateCodebook raises InvalidArgument iff the name is invalid
(empty, longer than 100 characters, or containing a character that is not
alphanumeric, space, hyphen or underscore); the validation error is raised
before any I/O, leaving the store unchanged; CreateCodebook("user","") and a
101-character name fail with InvalidArgument while "A-B_C 1" succeeds. -/
theorem CreateCodebook_validation (db : VaultDB) (owner : String) (nid : Int) (now : String)
    (prepOk stepOk : Bool) (name : String) :
    ((∃ msg, (CreateCodebook db owner name nid now prepOk stepOk).1 =
        Except.error (VaultError.invalidArgument msg)) ↔
      ¬ (name ≠ "" ∧ name.length ≤ 100 ∧
          ∀ c ∈ name.toList, c.isAlphanum = true ∨ c = ' ' ∨ c = '-' ∨ c = '_')) ∧
    (ValidateCodebookName name = false →
      (CreateCodebook db owner name nid now prepOk stepOk).2 = db) ∧
    (∃ msg, (CreateCodebook db owner "" nid now prepOk stepOk).1 =
      Except.error (VaultError.invalidArgument msg)) ∧
    (∃ msg, (CreateCodebook db owner (List.replicate 101 'a').asString nid now prepOk stepOk).1 =
      Except.error (VaultError.invalidArgument msg)) ∧
    (CreateCodebook db owner "A-B_C 1" nid now true true).1 = Except.ok true := by
  refine ⟨?_, ?_, ?_, ?_, ?_⟩
  · rw [CreateCodebook_invalid_iff, Bool.eq_false_iff, ne_eq, ValidateCodebookName_iff]
  · intro h
    simp [CreateCodebook, h]
  · exact (CreateCodebook_invalid_iff db owner "" nid now prepOk stepOk).mpr (by decide)
  · exact (CreateCodebook_invalid_iff db owner (List.replicate 101 'a').asString nid now
      prepOk stepOk).mpr (by decide)
  · have hv : ValidateCodebookName "A-B_C 1" = true := by decide
    simp only [CreateCodebook, hv, Bool.true_eq_false, if_false]
    split <;> rfl

theorem CreateCodebook_validation_witness :
    (CreateCodebook (VaultDB.mk [] []) "user" "A-B_C 1" 1 "t1" true true).1 = Except.ok true :=
  (CreateCodebook_validation (VaultDB.mk [] []) "user" 1 "t1" true true "A-B_C 1").2.2.2.2

/-- Claim C2: CreateCodebook is idempotent: under the schema's uniqueness of
(owner, name), calling it twice with the same owner and valid name returns
true both times, leaves exactly one Codebook row with that key, and the second
call does not modify the state. -/
theorem CreateCodebook_idempotent (db : VaultDB) (owner name : String) (id1 id2 : Int)
    (t1 t2 : String) (hv : ValidateCodebookName name = true)
    (hu : db.codebooks.countP (cbKey owner name) ≤ 1) :
    (CreateCodebook db owner name id1 t1 true true).1 = Except.ok true ∧
    (CreateCodebook (CreateCodebook db owner name id1 t1 true true).2
        owner name id2 t2 true true).1 = Except.ok true ∧
    ((CreateCodebook (CreateCodebook db owner name id1 t1 true true).2
        owner name id2 t2 true true).2).codebooks.countP (cbKey owner name) = 1 ∧
    (CreateCodebook (CreateCodebook db owner name id1 t1 true true).2
        owner name id2 t2 true true).2 = (CreateCodebook db owner name id1 t1 true true).2 := by
  by_cases hany : (db.codebooks.any fun cb => cb.username == owner && cb.codebook_name == name)
      = true
  · have h1 : CreateCodebook db owner name id1 t1 true true = (Except.ok true, db) := by
      simp [CreateCodebook, hv, hany]
    have hpos : 0 < db.codebooks.countP (cbKey owner name) := by
      rcases List.any_eq_true.mp hany with ⟨cb, hmem, hp⟩
      exact List.countP_pos_iff.mpr ⟨cb, hmem, hp⟩
    rw [h1]
    simp only [CreateCodebook, hv, Bool.true_eq_false, if_false, hany, if_true]
    refine ⟨by trivial, by trivial, ?_, by trivial⟩
    omega
  · have hzero : db.codebooks.countP (cbKey owner name) = 0 := by
      rw [List.countP_eq_zero]
      intro cb hmem hp
      exact hany (List.any_eq_true.mpr ⟨cb, hmem, hp⟩)
    have h1 : CreateCodebook db owner name id1 t1 true true =
        (Except.ok true, { db with codebooks := Codebook.mk id1 owner name t1 :: db.codebooks }) := by
      simp only [CreateCodebook, hv, Bool.true_eq_false, if_false]
      rw [if_neg (by simp [hany])]
    have hany2 : (((Codebook.mk id1 owner name t1 :: db.codebooks)).any
        fun cb => cb.username == owner && cb.codebook_name == name) = true := by
      simp [List.any_cons]
    rw [h1]
    simp only [CreateCodebook, hv, Bool.true_eq_false, if_false]
    rw [if_pos hany2]
    refine ⟨by trivial, by trivial, ?_, by trivial⟩
    simp only [List.countP_cons]
    have hk : cbKey owner name (Codebook.mk id1 owner name t1) = true := by simp [cbKey]
    rw [hzero]
    simp [hk, cbKey]

theorem CreateCodebook_idempotent_witness :
    (CreateCodebook (VaultDB.mk [] []) "user" "Work" 1 "t1" true true).1 = Except.ok true :=
  (CreateCodebook_idempotent (VaultDB.mk [] []) "user" "Work" 1 2 "t1" "t2"
    (by decide) (by decide)).1

/-- A store holding codebook 1 with one password entry; used to instantiate
hypotheses of the atomicity theorem. -/
def vaultC1 : VaultDB :=
  VaultDB.mk [Codebook.mk 1 "u" "Work" "t0"] [PasswordEntry.mk 1 1 "a" "k" "p" "" "t1"]

/-- Claim C1: DeleteCodebook is atomic: for every codebook_id that exists, if
any of the six store calls (begin, either delete's prepare or step, commit)
fails, a StorageError is raised and the store is returned intact; when all
succeed, the Codebook row and all PasswordEntry rows with that codebook_id are
deleted as one unit. -/
theorem DeleteCodebook_atomic (db : VaultDB) (id : Int) (s : DeleteSteps)
    (hex : CheckCodebookExists db id = true) :
    (s ≠ DeleteSteps.allOk →
      (∃ msg, (DeleteCodebook db id s).1 = Except.error (VaultError.storageError msg)) ∧
      (DeleteCodebook db id s).2 = db) ∧
    (s = DeleteSteps.allOk →
      DeleteCodebook db id s =
        (Except.ok true,
          { codebooks := db.codebooks.filter fun cb => cb.codebook_id != id,
            entries := db.entries.filter fun e => e.codebook_id != id })) := by
  obtain ⟨b1, b2, b3, b4, b5, b6⟩ := s
  cases b1 <;> cases b2 <;> cases b3 <;> cases b4 <;> cases b5 <;> cases b6 <;>
    simp [DeleteCodebook, DeleteSteps.allOk, hex]

theorem DeleteCodebook_atomic_witness :
    ((⟨true, true, false, true, true, true⟩ : DeleteSteps) ≠ DeleteSteps.allOk →
      (∃ msg, (DeleteCodebook vaultC1 1 ⟨true, true, false, true, true, true⟩).1 =
        Except.error (VaultError.storageError msg)) ∧
      (DeleteCodebook vaultC1 1 ⟨true, true, false, true, true, true⟩).2 = vaultC1) ∧
    ((⟨true, true, false, true, true, true⟩ : DeleteSteps) = DeleteSteps.allOk →
      DeleteCodebook vaultC1 1 ⟨true, true, false, true, true, true⟩ =
        (Except.ok true,
          { codebooks := vaultC1.codebooks.filter fun cb => cb.codebook_id != 1,
            entries := vaultC1.entries.filter fun e => e.codebook_id != 1 })) :=
  DeleteCodebook_atomic vaultC1 1 ⟨true, true, false, true, true, true⟩ (by decide)

/-- Claim C4: AddEntry on a codebook_id that does not reference an existing
Codebook returns false without raising an error and leaves the store
unchanged; moreover AddEntry never raises InvalidArgument for any field
values, i.e. it performs no field validation. -/
theorem AddEntry_referential_guard (db : VaultDB) (cid : Int) (a k p n : String) (nid : Int)
    (now : String) (prepOk stepOk : Bool) (h : CheckCodebookExists db cid = false) :
    AddEntry db cid a k p n nid now prepOk stepOk = (Except.ok false, db) ∧
    ∀ (db2 : VaultDB) (cid2 nid2 : Int) (a2 k2 p2 n2 now2 : String) (prep2 step2 : Bool)
      (msg : String),
      (AddEntry db2 cid2 a2 k2 p2 n2 nid2 now2 prep2 step2).1 ≠
        Except.error (VaultError.invalidArgument msg) := by
  constructor
  · simp [AddEntry, h]
  · intro db2 cid2 nid2 a2 k2 p2 n2 now2 prep2 step2 msg
    simp only [AddEntry]
    split
    · simp
    · split
      · simp
      · split <;> simp

theorem AddEntry_referential_guard_witness :
    AddEntry (VaultDB.mk [] []) 7 "a" "k" "p" "n" 1 "t1" true true =
      (Except.ok false, VaultDB.mk [] []) :=
  (AddEntry_referential_guard (VaultDB.mk [] []) 7 "a" "k" "p" "n" 1 "t1" true true
    (by decide)).1

theorem UpdateEntry_invalid_iff (db : VaultDB) (eid : Int) (a k p n : String)
    (prepOk stepOk : Bool) :
    (∃ msg, (UpdateEntry db eid a k p n prepOk stepOk).1 =
        Except.error (VaultError.invalidArgument msg)) ↔
      ((a.isEmpty || decide (a.length > 253)) = true ∨
       (k.isEmpty || decide (k.length > 4096)) = true ∨
       (p.isEmpty || decide (p.length > 512)) = true) := by
  by_cases h1 : (a.isEmpty || decide (a.length > 253)) = true
  · simp [UpdateEntry, h1]
  · by_cases h2 : (k.isEmpty || decide (k.length > 4096)) = true
    · simp [UpdateEntry, h1, h2]
    · by_cases h3 : (p.isEmpty || decide (p.length > 512)) = true
      · simp [UpdateEntry, h1, h2, h3]
      · cases prepOk <;> cases stepOk <;> simp [UpdateEntry, h1, h2, h3]

/-- Claim C3: UpdateEntry raises InvalidArgument iff new_address is empty or
longer than 253 characters, new_public_key is empty or longer than 4096, or
new_encrypted_password is empty or longer than 512 (notes is never
validated); otherwise it returns true iff the update statement succeeded and
at least one row matched entry_id, so on a non-existent entry_id it returns
false without raising an error. -/
theorem UpdateEntry_contract (db : VaultDB) (eid : Int) (a k p n : String)
    (prepOk stepOk : Bool) :
    ((∃ msg, (UpdateEntry db eid a k p n prepOk stepOk).1 =
        Except.error (VaultError.invalidArgument msg)) ↔
      (a = "" ∨ 253 < a.length ∨ k = "" ∨ 4096 < k.length ∨ p = "" ∨ 512 < p.length)) ∧
    (¬ (a = "" ∨ 253 < a.length ∨ k = "" ∨ 4096 < k.length ∨ p = "" ∨ 512 < p.length) →
      ((UpdateEntry db eid a k p n true stepOk).1 = Except.ok true ↔
        stepOk = true ∧ ∃ e ∈ db.entries, e.entry_id = eid)) ∧
    (¬ (a = "" ∨ 253 < a.length ∨ k = "" ∨ 4096 < k.length ∨ p = "" ∨ 512 < p.length) →
      (∀ e ∈ db.entries, e.entry_id ≠ eid) →
      UpdateEntry db eid a k p n true true = (Except.ok false, db)) := by
  have htr : ((a.isEmpty || decide (a.length > 253)) = true ∨
       (k.isEmpty || decide (k.length > 4096)) = true ∨
       (p.isEmpty || decide (p.length > 512)) = true) ↔
      (a = "" ∨ 253 < a.length ∨ k = "" ∨ 4096 < k.length ∨ p = "" ∨ 512 < p.length) := by
    simp [String.isEmpty_iff, or_assoc]
  refine ⟨(UpdateEntry_invalid_iff db eid a k p n prepOk stepOk).trans htr, ?_, ?_⟩
  · intro hP
    rw [← htr] at hP
    push_neg at hP
    obtain ⟨h1, h2, h3⟩ := hP
    simp only [ne_eq, Bool.not_eq_true] at h1 h2 h3
    cases stepOk with
    | false => simp [UpdateEntry, h1, h2, h3]
    | true =>
      simp only [UpdateEntry, h1, h2, h3, Bool.false_eq_true, if_false, Bool.true_eq_false]
      simp [List.countP_eq_zero, bne_iff_ne]
  · intro hP hnone
    rw [← htr] at hP
    push_neg at hP
    obtain ⟨h1, h2, h3⟩ := hP
    simp only [ne_eq, Bool.not_eq_true] at h1 h2 h3
    have hz : db.entries.countP (fun e => e.entry_id == eid) = 0 := by
      rw [List.countP_eq_zero]
      intro e he
      simpa using hnone e he
    have hmap : (db.entries.map fun e =>
        if e.entry_id == eid then
          { e with address := a, public_key := k, encrypted_password := p, notes := n }
        else e) = db.entries := by
      conv_rhs => rw [← List.map_id db.entries]
      apply List.map_congr_left
      intro e he
      have : (e.entry_id == eid) = false := by simpa using hnone e he
      simp [this]
    simp only [beq_iff_eq] at hmap
    simp [UpdateEntry, h1, h2, h3, hz, hmap]

theorem UpdateEntry_contract_witness :
    UpdateEntry (VaultDB.mk [] []) 5 "a" "k" "p" "n" true true =
      (Except.ok false, VaultDB.mk [] []) :=
  (UpdateEntry_contract (VaultDB.mk [] []) 5 "a" "k" "p" "n" true true).2.2
    (by decide) (by decide)

/-- Row-wise frame relation of UpdateEntry: the row keeps its entry_id,
codebook_id and created_time, and a row whose entry_id differs from the
targeted one is wholly unchanged. -/
def frameRel (eid : Int) (e e2 : PasswordEntry) : Prop :=
  e2.entry_id = e.entry_id ∧ e2.codebook_id = e.codebook_id ∧
    e2.created_time = e.created_time ∧ (e.entry_id ≠ eid → e2 = e)

theorem forall₂_map_self {α : Type} (R : α → α → Prop) (f : α → α) (l : List α)
    (h : ∀ x ∈ l, R x (f x)) : List.Forall₂ R l (l.map f) := by
  induction l with
  | nil => exact List.Forall₂.nil
  | cons x xs ih => exact List.Forall₂.cons (h x (by simp)) (ih fun a ha => h a (by simp [ha]))

theorem forall₂_frameRel_refl (eid : Int) (l : List PasswordEntry) :
    List.Forall₂ (frameRel eid) l l := by
  have h := forall₂_map_self (frameRel eid) id l (fun x _ => ⟨rfl, rfl, rfl, fun _ => rfl⟩)
  simpa using h

theorem UpdateEntry_state (db : VaultDB) (eid : Int) (a k p n : String) (prepOk stepOk : Bool) :
    (UpdateEntry db eid a k p n prepOk stepOk).2 = db ∨
    (UpdateEntry db eid a k p n prepOk stepOk).2 =
      { db with entries := db.entries.map fun e =>
          if e.entry_id == eid then
            { e with address := a, public_key := k, encrypted_password := p, notes := n }
          else e } := by
  simp only [UpdateEntry]
  split
  · left; rfl
  · split
    · left; rfl
    · split
      · left; rfl
      · split
        · left; rfl
        · split
          · left; rfl
          · right; rfl

/-- Claim C10: UpdateEntry modifies only the address, public_key,
encrypted_password and notes fields of the rows whose entry_id matches: each
row keeps its entry_id, codebook_id and created_time, every row whose
entry_id differs is unchanged, and the Codebook table is never modified —
on the success path, the not-found path and every error path. -/
theorem UpdateEntry_frame (db : VaultDB) (eid : Int) (a k p n : String) (prepOk stepOk : Bool) :
    ((UpdateEntry db eid a k p n prepOk stepOk).2).codebooks = db.codebooks ∧
    List.Forall₂ (frameRel eid) db.entries
      ((UpdateEntry db eid a k p n prepOk stepOk).2).entries := by
  rcases UpdateEntry_state db eid a k p n prepOk stepOk with h | h <;> rw [h]
  · exact ⟨rfl, forall₂_frameRel_refl eid db.entries⟩
  · refine ⟨rfl, ?_⟩
    apply forall₂_map_self
    intro e _
    by_cases hb : e.entry_id = eid
    · have hbeq : (e.entry_id == eid) = true := by simpa using hb
      simp only [hbeq, if_true]
      exact ⟨rfl, rfl, rfl, fun hne => absurd hb hne⟩
    · have hbeq : (e.entry_id == eid) = false := by simpa using hb
      simp only [hbeq, Bool.false_eq_true, if_false]
      exact ⟨rfl, rfl, rfl, fun _ => rfl⟩

/-- Claim C6 counterexample: in CreateCodebook a statement execution failure
(the step call not reporting SQLITE_DONE) is reported as a plain false return
with the store unchanged and no StorageError raised. -/
theorem CreateCodebook_step_failure_silent_cex :
    CreateCodebook (VaultDB.mk [] []) "user" "Work" 1 "t1" true false =
      (Except.ok false, VaultDB.mk [] []) := by decide

/-- A store holding codebook 1 and no entries, used to instantiate the
error-surfacing theorem. -/
def vaultC6 : VaultDB := VaultDB.mk [Codebook.mk 1 "u" "Work" "t0"] []

/-- Claim C6 (amended): statement preparation failures, and any begin, delete
or commit failure inside DeleteCodebook, surface as a StorageError carrying
the store's diagnostic message, and a boolean true is only produced when the
write step fully succeeded; however, in CreateCodebook, AddEntry and
UpdateEntry a statement execution failure is reported as a plain false return
with the store unchanged, not as a StorageError. -/
theorem StorageError_surfacing (db : VaultDB) (owner name : String) (nid : Int) (now : String)
    (cid eid nid2 : Int) (a k p n : String) (s : DeleteSteps) (b : Bool)
    (hv : ValidateCodebookName name = true)
    (hex : CheckCodebookExists db cid = true)
    (hval : ¬ (a = "" ∨ 253 < a.length ∨ k = "" ∨ 4096 < k.length ∨ p = "" ∨ 512 < p.length))
    (hfail : s ≠ DeleteSteps.allOk) :
    CreateCodebook db owner name nid now false b =
      (Except.error (VaultError.storageError "Prepare failed"), db) ∧
    CreateCodebook db owner name nid now true false = (Except.ok false, db) ∧
    AddEntry db cid a k p n nid2 now false b =
      (Except.error (VaultError.storageError "Prepare failed"), db) ∧
    AddEntry db cid a k p n nid2 now true false = (Except.ok false, db) ∧
    UpdateEntry db eid a k p n false b =
      (Except.error (VaultError.storageError "Prepare failed"), db) ∧
    UpdateEntry db eid a k p n true false = (Except.ok false, db) ∧
    ((∃ msg, (DeleteCodebook db cid s).1 = Except.error (VaultError.storageError msg)) ∧
      (DeleteCodebook db cid s).2 = db) ∧
    (∀ b1, (CreateCodebook db owner name nid now b1 false).1 ≠ Except.ok true) ∧
    (∀ b1, (AddEntry db cid a k p n nid2 now b1 false).1 ≠ Except.ok true) ∧
    (∀ b1, (UpdateEntry db eid a k p n b1 false).1 ≠ Except.ok true) := by
  have htr : ((a.isEmpty || decide (a.length > 253)) = true ∨
       (k.isEmpty || decide (k.length > 4096)) = true ∨
       (p.isEmpty || decide (p.length > 512)) = true) ↔
      (a = "" ∨ 253 < a.length ∨ k = "" ∨ 4096 < k.length ∨ p = "" ∨ 512 < p.length) := by
    simp [String.isEmpty_iff, or_assoc]
  rw [← htr] at hval
  push_neg at hval
  obtain ⟨h1, h2, h3⟩ := hval
  simp only [ne_eq, Bool.not_eq_true] at h1 h2 h3
  refine ⟨by simp [CreateCodebook, hv], by simp [CreateCodebook, hv],
    by simp [AddEntry, hex], by simp [AddEntry, hex],
    by simp [UpdateEntry, h1, h2, h3], by simp [UpdateEntry, h1, h2, h3], ?_, ?_, ?_, ?_⟩
  · obtain ⟨b1, b2, b3, b4, b5, b6⟩ := s
    cases b1 <;> cases b2 <;> cases b3 <;> cases b4 <;> cases b5 <;> cases b6 <;>
      simp_all [DeleteCodebook, DeleteSteps.allOk, hex]
  · intro b1
    cases b1 <;> simp [CreateCodebook, hv]
  · intro b1
    cases b1 <;> simp [AddEntry, hex]
  · intro b1
    cases b1 <;> simp [UpdateEntry, h1, h2, h3]

theorem StorageError_surfacing_witness :
    CreateCodebook vaultC6 "user" "Work" 9 "t9" false true =
      (Except.error (VaultError.storageError "Prepare failed"), vaultC6) :=
  (StorageError_surfacing vaultC6 "user" "Work" 9 "t9" 1 5 2 "a" "k" "p" "n"
    ⟨true, true, false, true, true, true⟩ true (by decide) (by decide) (by decide)
    (by decide)).1

/-- Five entries in codebook 1 with pairwise distinct creation times ("t1"
oldest to "t5" newest), to exercise pagination. -/
def vaultPage : VaultDB :=
  VaultDB.mk [Codebook.mk 1 "u" "Work" "t0"]
    [PasswordEntry.mk 1 1 "a1" "k" "p" "" "t1",
     PasswordEntry.mk 2 1 "a2" "k" "p" "" "t2",
     PasswordEntry.mk 3 1 "a3" "k" "p" "" "t3",
     PasswordEntry.mk 4 1 "a4" "k" "p" "" "t4",
     PasswordEntry.mk 5 1 "a5" "k" "p" "" "t5"]

/-- Claim C7: GetEntries paginates with a zero-based page index and offset =
page * page_size over the filtered entries ordered by creation time
descending; a page at or beyond the available rows yields the empty sequence
(not an error); and with 5 entries, page 1 of size 2 returns exactly the 3rd
and 4th most-recently-created entries. -/
theorem GetEntries_pagination (db : VaultDB) (cid : Int) (f : String) (page page_size : Int)
    (hp : 0 ≤ page) (hs : 0 ≤ page_size) :
    GetEntries db cid f page page_size =
      ((List.insertionSort peAfter (entriesMatching db cid f)).drop
        (page * page_size).toNat).take page_size.toNat ∧
    List.Sorted peAfter (GetEntries db cid f page page_size) ∧
    ((List.insertionSort peAfter (entriesMatching db cid f)).length ≤ (page * page_size).toNat →
      GetEntries db cid f page page_size = []) ∧
    GetEntries vaultPage 1 "" 1 2 =
      [PasswordEntry.mk 3 1 "a3" "k" "p" "" "t3",
       PasswordEntry.mk 2 1 "a2" "k" "p" "" "t2"] := by
  have hw : GetEntries db cid f page page_size =
      ((List.insertionSort peAfter (entriesMatching db cid f)).drop
        (page * page_size).toNat).take page_size.toNat := by
    simp only [GetEntries, sqliteWindow]
    rw [if_neg (by omega)]
  refine ⟨hw, ?_, ?_, ?_⟩
  · rw [hw]
    exact (List.sorted_insertionSort peAfter _).sublist
      ((List.take_sublist _ _).trans (List.drop_sublist _ _))
  · intro hlen
    rw [hw, List.drop_eq_nil_of_le hlen, List.take_nil]
  · decide

theorem GetEntries_pagination_witness :
    GetEntries vaultPage 1 "" 1 2 =
      [PasswordEntry.mk 3 1 "a3" "k" "p" "" "t3",
       PasswordEntry.mk 2 1 "a2" "k" "p" "" "t2"] :=
  (GetEntries_pagination vaultPage 1 "" 1 2 (by decide) (by decide)).2.2.2

/-- A store with one codebook and one entry whose address is "x"; the LIKE
filter "_" matches it although "_" is not a literal substring of "x". -/
def vaultC8 : VaultDB :=
  VaultDB.mk [Codebook.mk 1 "u" "Work" "t0"] [PasswordEntry.mk 1 1 "x" "k" "p" "" "t1"]

/-- Claim C8 counterexample: with filter "_" GetEntries returns the entry
whose address is "x" although "_" does not occur literally within "x" — the
filter is interpreted through LIKE wildcards, not literal substring
containment. -/
theorem GetEntries_like_wildcard_cex :
    GetEntries vaultC8 1 "_" 0 10 = [PasswordEntry.mk 1 1 "x" "k" "p" "" "t1"] ∧
    ¬ specContainsSubstring "_" "x" := by decide

/-- Claim C8 (amended): GetEntries returns exactly the entries of the
codebook whose address matches the SQL LIKE pattern "%" ++ filter ++ "%",
with "%" and "_" inside the filter acting as wildcards and ASCII letters
compared case-insensitively — not the entries whose address contains the
filter as a literal substring. -/
theorem GetEntries_like_semantics (db : VaultDB) (cid : Int) (f : String) (page_size : Int)
    (hn : db.entries.length ≤ page_size.toNat) :
    ∀ e, e ∈ GetEntries db cid f 0 page_size ↔
      e ∈ db.entries ∧ e.codebook_id = cid ∧ sqlLike ("%" ++ f ++ "%") e.address = true := by
  have hlen : (List.insertionSort peAfter (entriesMatching db cid f)).length ≤
      page_size.toNat := by
    rw [(List.perm_insertionSort peAfter _).length_eq]
    exact le_trans (List.length_filter_le _ _) hn
  have hwin : GetEntries db cid f 0 page_size =
      List.insertionSort peAfter (entriesMatching db cid f) := by
    simp only [GetEntries, sqliteWindow]
    rw [show ((0 : Int) * page_size) = 0 by ring]
    simp only [Int.toNat_zero, List.drop_zero]
    split
    · rfl
    · exact List.take_of_length_le hlen
  intro e
  rw [hwin, (List.perm_insertionSort peAfter _).mem_iff]
  simp [entriesMatching, List.mem_filter, and_assoc]

theorem GetEntries_like_semantics_witness :
    PasswordEntry.mk 1 1 "x" "k" "p" "" "t1" ∈ GetEntries vaultC8 1 "_" 0 10 ↔
      (PasswordEntry.mk 1 1 "x" "k" "p" "" "t1" ∈ vaultC8.entries ∧
        (PasswordEntry.mk 1 1 "x" "k" "p" "" "t1").codebook_id = 1 ∧
        sqlLike ("%" ++ "_" ++ "%") (PasswordEntry.mk 1 1 "x" "k" "p" "" "t1").address = true) :=
  GetEntries_like_semantics vaultC8 1 "_" 10 (by decide)
    (PasswordEntry.mk 1 1 "x" "k" "p" "" "t1")

/-- Claim C9 counterexample: CreateCodebook performs no validation of the
owner, so a codebook owned by the empty string can be created, after which
GetUserCodebooks applied to the empty owner returns that codebook rather
than the empty sequence. -/
theorem GetUserCodebooks_empty_owner_cex :
    (CreateCodebook (VaultDB.mk [] []) "" "Work" 1 "t1" true true).1 = Except.ok true ∧
    GetUserCodebooks (CreateCodebook (VaultDB.mk [] []) "" "Work" 1 "t1" true true).2 "" =
      [Codebook.mk 1 "" "Work" "t1"] := by decide

/-- Claim C9 (amended): GetUserCodebooks returns exactly the codebooks whose
owner equals the argument and no others, ordered by creation time
descending; the empty owner yields the empty sequence (not an error)
whenever no codebook row has an empty owner, but an existing codebook owned
by the empty string is returned. -/
theorem GetUserCodebooks_exact (db : VaultDB) (owner : String) :
    (∀ cb, cb ∈ GetUserCodebooks db owner ↔ cb ∈ db.codebooks ∧ cb.username = owner) ∧
    List.Sorted cbAfter (GetUserCodebooks db owner) ∧
    ((∀ cb ∈ db.codebooks, cb.username ≠ "") → GetUserCodebooks db "" = []) := by
  refine ⟨?_, ?_, ?_⟩
  · intro cb
    rw [GetUserCodebooks, (List.perm_insertionSort cbAfter _).mem_iff]
    simp [List.mem_filter]
  · exact List.sorted_insertionSort cbAfter _
  · intro hno
    rw [GetUserCodebooks]
    have hnil : (db.codebooks.filter fun cb => cb.username == "") = [] := by
      rw [List.filter_eq_nil_iff]
      intro cb hcb
      simpa using hno cb hcb
    rw [hnil]
    rfl

theorem GetUserCodebooks_exact_witness :
    GetUserCodebooks (VaultDB.mk [Codebook.mk 1 "u" "Work" "t0"] []) "" = [] :=
  (GetUserCodebooks_exact (VaultDB.mk [Codebook.mk 1 "u" "Work" "t0"] []) "").2.2 (by decide)
